import Mathlib

/-!
Verification of the go_share_cli HTTP file gateway (package `server`,
file share.go: FileHandler.ServeHTTP, handleAPIFiles, handleUpload,
serveDirectory, serveDirectoryAsZip, applyAuthMiddleware, formatFileSize,
StartServer routing).

Go strings are embedded as `List Char`; on the ASCII inputs appearing in the
handlers, Go's byte-wise string operations coincide with the character-wise
operations used here (UTF-8 byte order agrees with code-point order).
-/

namespace GoShare

/-- Go strings, embedded as lists of characters. -/
abbrev GoStr := List Char

/-- Split a string on the separator `'/'`, keeping empty segments
(the behaviour of iterating path elements in Go's `filepath.Clean`). -/
def splitSlash : GoStr → List GoStr
  | [] => [[]]
  | c :: rest =>
    let r := splitSlash rest
    if c = '/' then [] :: r
    else
      match r with
      | [] => [[c]]
      | h :: t => (c :: h) :: t

/-- One step of Go `filepath.Clean`'s element loop, over a reversed output
buffer: empty and "." segments are dropped; ".." pops the previous element
unless the buffer holds only ".." elements, in which case it is dropped when
the path is rooted and kept otherwise. -/
def cleanStep (rooted : Bool) (out : List GoStr) (seg : GoStr) : List GoStr :=
  if seg = [] ∨ seg = ['.'] then out
  else if seg = ['.', '.'] then
    match out with
    | s :: t => if s = ['.', '.'] then seg :: out else t
    | [] => if rooted then [] else [seg]
  else seg :: out

/-- Go `path/filepath.Clean` (Unix): lexical normalization collapsing
`.` and `..` segments and repeated separators. -/
def filepathClean (s : GoStr) : GoStr :=
  if s = [] then ['.']
  else
    let rooted := s.head? = some '/'
    let out := ((splitSlash s).foldl (cleanStep rooted) []).reverse
    if rooted then '/' :: List.intercalate ['/'] out
    else if out = [] then ['.']
    else List.intercalate ['/'] out

/-- Go `path/filepath.Join` for two elements: join with a separator, then
`Clean`; an empty first element defers to the second (Go skips empty
elements before joining). -/
def filepathJoin (a b : GoStr) : GoStr :=
  if a = [] then (if b = [] then [] else filepathClean b)
  else filepathClean (a ++ '/' :: b)

/-- Go `strings.TrimPrefix s pre`: drop `pre` from the front of `s` when it
is a prefix, otherwise return `s` unchanged. -/
def goTrimPre (s pre : GoStr) : GoStr :=
  if pre.isPrefixOf s then s.drop pre.length else s

/-- Containment notion of the spec's data-model invariant: a filesystem path
is inside SharedRoot when it equals the root or extends it past a path
separator ("descendant of (or equal to)" SharedRoot). -/
def withinRoot (root p : GoStr) : Bool :=
  p == root || (root ++ ['/']).isPrefixOf p

/-- Shared path resolution of `FileHandler.ServeHTTP` (share.go:518-536),
`FileHandler.handleAPIFiles` (share.go:980-998) and
`FileHandler.handleUpload` (share.go:893-911): default an empty request
path to "/", `filepath.Clean` it (mapping a residual "." back to "/"),
join the result onto the root directory after stripping a leading "/",
and accept the joined path iff `strings.HasPrefix fsPath rootDir`; `none`
models the HTTP 403 "Access denied" branch taken before any filesystem
operation. -/
def resolveUnder (rootDir requestPath : GoStr) : Option GoStr :=
  let rp := if requestPath = [] then ['/'] else requestPath
  let c := filepathClean rp
  let cleanPath := if c = ['.'] then ['/'] else c
  let fsPath := filepathJoin rootDir (goTrimPre cleanPath ['/'])
  if rootDir.isPrefixOf fsPath then some fsPath else none

/-- Destination path of one uploaded file in `FileHandler.handleUpload`
(share.go:931): `filepath.Join(fsDir, fileHeader.Filename)`, used with no
further containment check. -/
def uploadDestPath (fsDir filename : GoStr) : GoStr :=
  filepathJoin fsDir filename

/-- A Set-Cookie value as produced by `http.SetCookie` in the login branch of
`applyAuthMiddleware` (share.go:1093-1099). -/
structure SetCookie where
  name : GoStr
  value : GoStr
  cookiePath : GoStr
  httpOnly : Bool
  maxAge : Nat
deriving DecidableEq

/-- The request data consulted by `applyAuthMiddleware` and by the
`/api/auth/check` branch of `FileHandler.ServeHTTP`: method, URL path, the
"password" and "redirect" form values (Go's `FormValue` yields "" when a
field is absent), the value of the `auth_session` cookie when present
(`r.Cookie` fails otherwise), and the Basic-Auth credentials when the
Authorization header parses (`r.BasicAuth`'s ok flag). -/
structure AuthRequest where
  method : GoStr
  urlPath : GoStr
  formPassword : GoStr
  formRedirect : GoStr
  cookieAuthSession : Option GoStr
  basicAuth : Option (GoStr × GoStr)
deriving DecidableEq

/-- Outcome of the auth middleware on one request: forward to the wrapped
handler, redirect with a freshly set session cookie, or answer with the
login form page at the given HTTP status (the flag records whether the
"Invalid password" error message is rendered). A login-form outcome carries
no cookie: the code sets a cookie only in the successful-login branch. -/
inductive AuthDecision where
  | pass
  | redirect (location : GoStr) (cookie : SetCookie) (status : Nat)
  | loginForm (status : Nat) (errorShown : Bool)
deriving DecidableEq

/-- The session cookie set on successful login (share.go:1093-1099):
auth_session=authenticated; Path=/; HttpOnly; Max-Age=86400. -/
def sessionCookie : SetCookie :=
  { name := "auth_session".toList
    value := "authenticated".toList
    cookiePath := "/".toList
    httpOnly := true
    maxAge := 86400 }

/-- Go `applyAuthMiddleware` (share.go:1082-1129): with an empty password
every request is forwarded; otherwise a POST to /login is answered by
comparing the submitted password (success: set `sessionCookie` and redirect
with 303 See Other to the "redirect" form value, defaulting to "/";
failure: login form with error, 401); any other request passes when it
bears the auth_session=authenticated cookie, or as fallback a Basic-Auth
header whose password matches (username ignored); otherwise the login form
is served with status 401. -/
def applyAuthMiddleware (password : GoStr) (r : AuthRequest) : AuthDecision :=
  if password = [] then .pass
  else if r.method = "POST".toList ∧ r.urlPath = "/login".toList then
    if r.formPassword = password then
      .redirect (if r.formRedirect = [] then "/".toList else r.formRedirect)
        sessionCookie 303
    else .loginForm 401 true
  else if r.cookieAuthSession = some "authenticated".toList then .pass
  else
    match r.basicAuth with
    | some (_, p) => if p = password then .pass else .loginForm 401 false
    | none => .loginForm 401 false

/-- The authentication status computed by the `/api/auth/check` branch of
`FileHandler.ServeHTTP` (share.go:479-495): true with no password
configured, else true iff the session cookie holds "authenticated" or,
failing that, the Basic-Auth password matches. -/
def authCheckStatus (password : GoStr) (r : AuthRequest) : Bool :=
  if password = [] then true
  else if r.cookieAuthSession = some "authenticated".toList then true
  else
    match r.basicAuth with
    | some (_, p) => p == password
    | none => false

/-- Responses distinguished for the `/api/auth/check` routing claims: the
JSON body with the authenticated flag, the login form page, or a redirect. -/
inductive CheckResponse where
  | authJson (authenticated : Bool)
  | loginPage (status : Nat)
  | redirectTo (location : GoStr) (cookie : SetCookie) (status : Nat)
deriving DecidableEq

/-- Serving a request whose URL path is /api/auth/check in no-frontend-bundle
mode (StartServer, share.go:863: the whole mux is
`applyAuthMiddleware(handler, password)`): the middleware decides first, and
only a forwarded request reaches the JSON status branch of
`FileHandler.ServeHTTP`. -/
def serveAuthCheckNoBundle (password : GoStr) (r : AuthRequest) : CheckResponse :=
  match applyAuthMiddleware password r with
  | .pass => .authJson (authCheckStatus password r)
  | .redirect l c s => .redirectTo l c s
  | .loginForm s _ => .loginPage s

/-- Serving a request whose URL path is /api/auth/check in frontend-bundle
mode (StartServer, share.go:841-843: paths with the /api/ leading segment go
straight to `handler.ServeHTTP`, bypassing the middleware). -/
def serveAuthCheckBundle (password : GoStr) (r : AuthRequest) : CheckResponse :=
  .authJson (authCheckStatus password r)

/-- ASCII lower-casing of one character, as Go's `strings.ToLower` acts on the
ASCII range (case mapping of characters beyond ASCII is not modelled; the
handlers' own string literals are all ASCII). -/
def lowerChar (c : Char) : Char :=
  if 'A' ≤ c ∧ c ≤ 'Z' then Char.ofNat (c.toNat + 32) else c

/-- Go `strings.ToLower` on ASCII strings: character-wise lower-casing. -/
def toLowerGo (s : GoStr) : GoStr := s.map lowerChar

/-- Go `path/filepath.Ext`: the suffix of the last element starting at the
final dot, empty when the last element has no dot. -/
def filepathExt (p : GoStr) : GoStr :=
  extRevAux p.reverse []
where
  /-- Scan the reversed path for the first dot, stopping at a separator. -/
  extRevAux : GoStr → GoStr → GoStr
    | [], _ => []
    | c :: t, acc =>
      if c = '/' then []
      else if c = '.' then '.' :: acc
      else extRevAux t (c :: acc)

/-- Go `getFileIcon` (share.go:722-754): the Font Awesome icon class chosen
from the directory flag or the lower-cased filename extension. -/
def getFileIcon (filename : GoStr) (isDir : Bool) : GoStr :=
  if isDir then "fas fa-folder text-blue-500".toList
  else
    let ext := toLowerGo (filepathExt filename)
    if ext ∈ [".txt", ".md", ".readme"].map String.toList then
      "fas fa-file-alt text-gray-600".toList
    else if ext ∈ [".pdf"].map String.toList then
      "fas fa-file-pdf text-red-600".toList
    else if ext ∈ [".doc", ".docx"].map String.toList then
      "fas fa-file-word text-blue-600".toList
    else if ext ∈ [".xls", ".xlsx"].map String.toList then
      "fas fa-file-excel text-green-600".toList
    else if ext ∈ [".ppt", ".pptx"].map String.toList then
      "fas fa-file-powerpoint text-orange-600".toList
    else if ext ∈ [".zip", ".rar", ".7z", ".tar", ".gz"].map String.toList then
      "fas fa-file-archive text-purple-600".toList
    else if ext ∈ [".jpg", ".jpeg", ".png", ".gif", ".bmp", ".svg", ".webp"].map String.toList then
      "fas fa-file-image text-pink-600".toList
    else if ext ∈ [".mp3", ".wav", ".flac", ".aac", ".ogg"].map String.toList then
      "fas fa-file-audio text-green-600".toList
    else if ext ∈ [".mp4", ".avi", ".mkv", ".mov", ".wmv", ".flv"].map String.toList then
      "fas fa-file-video text-red-600".toList
    else if ext ∈ [".html", ".htm", ".css", ".js", ".json", ".xml"].map String.toList then
      "fas fa-file-code text-blue-600".toList
    else if ext ∈ [".go", ".py", ".java", ".cpp", ".c", ".h", ".php", ".rb", ".rs"].map String.toList then
      "fas fa-file-code text-green-600".toList
    else "fas fa-file text-gray-600".toList

/-- One decimal digit as a character. -/
def digitChar (d : Nat) : Char := Char.ofNat (48 + d)

/-- Decimal rendering of a natural number, as Go's `%d` verb on non-negative
values. -/
def natDigits (n : Nat) : GoStr := Nat.toDigits 10 n

/-- The `div, exp` loop of `formatFileSize` (share.go:767-771) with an
explicit fuel argument for structural recursion: multiply `d` by 1024 and
bump `e` while `n` stays at least 1024, dividing `n` by 1024 each round.
Any fuel of at least `n` rounds is enough, since `n` strictly decreases. -/
def sizeLoopAux : Nat → Nat → Nat → Nat → Nat × Nat
  | 0, d, e, _ => (d, e)
  | fuel + 1, d, e, n =>
    if 1024 ≤ n then sizeLoopAux fuel (d * 1024) (e + 1) (n / 1024)
    else (d, e)

/-- The `div, exp` loop of `formatFileSize` (share.go:767-771): starting from
div = 1024 and exp = 0 with n = size/1024, multiply div by 1024 and bump exp
while n stays at least 1024, dividing n by 1024 each round. -/
def sizeLoopGo (d e n : Nat) : Nat × Nat := sizeLoopAux n d e n

/-- Round the rational num/den to the nearest integer, ties to even: the
rounding used both by int64-to-float64 conversion and by Go's fixed-precision
decimal formatting. -/
def roundNearEven (num den : Nat) : Nat :=
  let q := num / den
  let r := num % den
  if 2 * r < den then q
  else if den < 2 * r then q + 1
  else if q % 2 = 0 then q else q + 1

/-- The exact value of `float64(n)` for a non-negative int64 `n`: identical
to `n` below 2^53, otherwise `n` rounded to 53 significant bits (IEEE 754
round-to-nearest, ties to even). -/
def toFloat64Nat (n : Nat) : Nat :=
  if n < 2 ^ 53 then n
  else
    let s := n.log2 + 1 - 53
    roundNearEven n (2 ^ s) * 2 ^ s

/-- Render a count of tenths as a decimal with exactly one fractional digit,
the shape produced by Go's `%.1f` verb. -/
def fmtOneDec (tenths : Nat) : GoStr :=
  natDigits (tenths / 10) ++ '.' :: [digitChar (tenths % 10)]

/-- Go `%.1f` applied to `float64(size)/float64(d)` for `d` a power of two
(share.go:773): the division only shifts the exponent, so the printed value
is `float64(size)/d` exactly, correctly rounded to one decimal with ties to
even by Go's fixed-precision formatting. -/
def fmtFrac (size d : Nat) : GoStr :=
  fmtOneDec (roundNearEven (10 * toFloat64Nat size) d)

/-- The unit letter `"KMGTPE"[e]` (share.go:773); the default is never used
for int64 sizes, whose exponent stays below 6. -/
def sizeUnit (e : Nat) : Char := "KMGTPE".toList.getD e 'K'

/-- Go `formatFileSize` (share.go:757-774): directories render the "-"
placeholder; sizes below 1024 render as an integer byte count; larger sizes
run the division loop and render one decimal plus the unit letter. File
sizes from `os.FileInfo.Size` are non-negative, so the int64 argument is
embedded as a natural number. -/
def formatFileSize (size : Nat) (isDir : Bool) : GoStr :=
  if isDir then "-".toList
  else if size < 1024 then natDigits size ++ " B".toList
  else
    match sizeLoopGo 1024 0 (size / 1024) with
    | (d, e) => fmtFrac size d ++ ' ' :: sizeUnit e :: ['B']

/-- One entry of `os.ReadDir` with its `Info()` data, as consumed by
`serveDirectory` and `handleAPIFiles` (modification times are opaque stamps
here). -/
structure OsDirEntry where
  name : GoStr
  size : Nat
  isDir : Bool
  modTime : Nat
deriving DecidableEq

/-- Go `FileInfo` (share.go:24-32), the HTML template's listing model. -/
structure FileInfo where
  name : GoStr
  path : GoStr
  size : Nat
  modTime : Nat
  isDir : Bool
  icon : GoStr
  sizeStr : GoStr
deriving DecidableEq

/-- Go `APIFileItem` (share.go:35-42), the JSON listing model. -/
structure APIFileItem where
  name : GoStr
  path : GoStr
  size : Nat
  isDir : Bool
  modTime : Nat
  downloadCount : Nat
deriving DecidableEq

/-- The shape shared by both `sort.Slice` comparators (share.go:613-618 and
share.go:1053-1058): when the directory flags differ the first operand
compares below iff it is the directory, otherwise the sort keys compare by
Go string order. -/
def dirNameLess (da db : Bool) (ka kb : GoStr) : Bool :=
  if da ≠ db then da else decide (ka < kb)

/-- The comparator passed to `sort.Slice` in `serveDirectory`
(share.go:613-618): directories order before files, and within a group the
lower-cased names compare by Go string order. -/
def htmlLess (a b : FileInfo) : Bool :=
  dirNameLess a.isDir b.isDir (toLowerGo a.name) (toLowerGo b.name)

/-- The sortedness relation `sort.Slice` guarantees for `htmlLess`: the later
element never compares strictly below the earlier one. -/
def htmlLe (a b : FileInfo) : Prop := htmlLess b a = false

instance : DecidableRel htmlLe := fun a b => by unfold htmlLe; infer_instance

/-- The comparator passed to `sort.Slice` in `handleAPIFiles`
(share.go:1053-1058): directories order before files, and within a group the
names compare by Go string order with no case folding. -/
def apiLess (a b : APIFileItem) : Bool :=
  dirNameLess a.isDir b.isDir a.name b.name

/-- The sortedness relation `sort.Slice` guarantees for `apiLess`. -/
def apiLe (a b : APIFileItem) : Prop := apiLess b a = false

instance : DecidableRel apiLe := fun a b => by unfold apiLe; infer_instance

/-- The listing built by `serveDirectory` (share.go:592-618): every readable
entry (hidden names included) becomes a `FileInfo`, and the slice is sorted
with `htmlLess`. Go's `sort.Slice` promises exactly a permutation that is
sorted for the comparator; `List.insertionSort` realizes that contract
computably. -/
def serveDirectoryFiles (urlPath : GoStr) (entries : List OsDirEntry) : List FileInfo :=
  List.insertionSort htmlLe <| entries.map fun en =>
    { name := en.name
      path := filepathJoin urlPath en.name
      size := en.size
      modTime := en.modTime
      isDir := en.isDir
      icon := getFileIcon en.name en.isDir
      sizeStr := formatFileSize en.size en.isDir }

/-- The listing built by `handleAPIFiles` (share.go:1023-1058): entries whose
names have a leading dot are skipped, each remaining entry becomes an
`APIFileItem` whose path is the cleaned request path joined with the name
(prefixed with "/" when the join is not rooted), and the slice is sorted
with `apiLess`. -/
def handleAPIFilesList (cleanPath : GoStr) (entries : List OsDirEntry) : List APIFileItem :=
  List.insertionSort apiLe <|
    (entries.filter fun en => !(['.'].isPrefixOf en.name)).map fun en =>
      let fp := filepathJoin cleanPath en.name
      { name := en.name
        path := if ['/'].isPrefixOf fp then fp else '/' :: fp
        size := en.size
        isDir := en.isDir
        modTime := en.modTime
        downloadCount := 0 }

/-- A filesystem subtree as walked by `serveDirectoryAsZip`: a regular file
with its byte content, or a directory with its children. `filepath.Walk`
visits each directory's children in lexical name order; the child lists here
are taken in that visiting order, which no claim depends on. -/
inductive FsNode where
  | file (name : GoStr) (content : List Nat)
  | dir (name : GoStr) (children : List FsNode)

/-- One entry of the streamed archive: its name and, for file entries, the
bytes copied into it; directory entries (`zipWriter.Create(relPath + "/")`)
carry no content. -/
structure ZipEntry where
  entryName : GoStr
  content : Option (List Nat)
deriving DecidableEq

/-- The `filepath.Walk` callback of `serveDirectoryAsZip` (share.go:673-712)
over the children of the walked root, carrying the relative-path accumulator:
the root itself is skipped, every directory contributes one entry named with
a trailing separator followed by its own subtree, and every regular file
contributes one entry holding exactly its bytes. -/
def walkZip (pre : GoStr) : List FsNode → List ZipEntry
  | [] => []
  | .file n c :: rest => ⟨pre ++ n, some c⟩ :: walkZip pre rest
  | .dir n ch :: rest =>
    ⟨pre ++ n ++ ['/'], none⟩ :: (walkZip (pre ++ n ++ ['/']) ch ++ walkZip pre rest)

/-- The regular files of a subtree with their root-relative paths and bytes,
defined by plain tree recursion (the reference against which the walk's file
entries are measured). -/
def fsRegularFiles (pre : GoStr) : List FsNode → List (GoStr × List Nat)
  | [] => []
  | .file n c :: rest => (pre ++ n, c) :: fsRegularFiles pre rest
  | .dir n ch :: rest =>
    fsRegularFiles (pre ++ n ++ ['/']) ch ++ fsRegularFiles pre rest

/-- The subdirectories of a subtree with their root-relative paths, defined
by plain tree recursion. -/
def fsSubdirs (pre : GoStr) : List FsNode → List GoStr
  | [] => []
  | .file _ _ :: rest => fsSubdirs pre rest
  | .dir n ch :: rest =>
    (pre ++ n) :: (fsSubdirs (pre ++ n ++ ['/']) ch ++ fsSubdirs pre rest)

/-- One file of a multipart upload request as `handleUpload` sees it: the
client-supplied filename plus the fate of the three fallible steps taken for
it (`fileHeader.Open`, `os.Create`, `io.Copy`), and the bytes copied when
all succeed. -/
structure UploadFile where
  filename : GoStr
  openOk : Bool
  createOk : Bool
  copyOk : Bool
  content : List Nat
deriving DecidableEq

/-- Filesystem side effects of the upload loop, in program order. -/
inductive FsEvent where
  | created (path : GoStr)
  | wrote (path : GoStr) (content : List Nat)
  | removed (path : GoStr)
deriving DecidableEq

/-- The body of `handleUpload`'s per-file loop (share.go:923-946): a failing
`Open` is skipped with no filesystem effect; a failing `os.Create` is
skipped; a failing `io.Copy` leaves a created file that is removed by
`os.Remove` before skipping; a fully successful file is created and holds
exactly the uploaded bytes, and only then does the success count grow. -/
def processUploadFile (fsDir : GoStr) (f : UploadFile) : Bool × List FsEvent :=
  if f.openOk = false then (false, [])
  else
    let destPath := uploadDestPath fsDir f.filename
    if f.createOk = false then (false, [])
    else if f.copyOk = false then (false, [.created destPath, .removed destPath])
    else (true, [.created destPath, .wrote destPath f.content])

/-- The whole upload loop (share.go:920-946): every file of the request is
processed in order, accumulating the count of successfully saved files and
the filesystem events. -/
def handleUploadLoop (fsDir : GoStr) : List UploadFile → Nat × List FsEvent
  | [] => (0, [])
  | f :: rest =>
    let r := processUploadFile fsDir f
    let rec' := handleUploadLoop fsDir rest
    ((if r.1 then 1 else 0) + rec'.1, r.2 ++ rec'.2)

/-- The redirect URL built after the loop (share.go:949-956): the cleaned
target directory, with an `uploaded=count` query parameter appended only
when at least one file was saved — the response carries no per-file
failure detail. -/
def uploadRedirectURL (cleanDir : GoStr) (uploadedCount : Nat) : GoStr :=
  if 0 < uploadedCount then
    if cleanDir.contains '?' then
      cleanDir ++ "&uploaded=".toList ++ natDigits uploadedCount
    else
      cleanDir ++ "?uploaded=".toList ++ natDigits uploadedCount
  else cleanDir

/-- Replay one filesystem event on a store of full file contents keyed by
path: `os.Create` truncates to an empty file, a completed copy fills in the
bytes, `os.Remove` deletes the path. -/
def applyEvent (st : List (GoStr × List Nat)) : FsEvent → List (GoStr × List Nat)
  | .created p => (p, []) :: st.filter fun e => e.1 ≠ p
  | .wrote p c => (p, c) :: st.filter fun e => e.1 ≠ p
  | .removed p => st.filter fun e => e.1 ≠ p

/-- Replay a sequence of filesystem events. -/
def runEvents (st : List (GoStr × List Nat)) (evs : List FsEvent) : List (GoStr × List Nat) :=
  evs.foldl applyEvent st

/-- Falsity of one comparator step is transitive: this is the shape of the
sortedness guarantee `sort.Slice` gives for a strict-weak-order comparator. -/
theorem dirNameLess_trans_false {da db dc : Bool} {ka kb kc : GoStr}
    (h1 : dirNameLess db da kb ka = false) (h2 : dirNameLess dc db kc kb = false) :
    dirNameLess dc da kc ka = false := by
  cases da <;> cases db <;> cases dc <;>
    simp_all [dirNameLess, decide_eq_false_iff_not, not_lt] <;>
    exact le_trans h1 h2

/-- For any two elements, at least one direction of the comparator is false. -/
theorem dirNameLess_total_false (dx dy : Bool) (kx ky : GoStr) :
    dirNameLess dx dy kx ky = false ∨ dirNameLess dy dx ky kx = false := by
  cases dx <;> cases dy <;>
    simp_all [dirNameLess, decide_eq_false_iff_not, not_lt] <;>
    exact le_total _ _

/-- Read the listing-order invariant off one false comparator step: the
earlier element is the directory when the flags differ, and its key is no
larger when they agree. -/
theorem dirNameLess_false_pair {da db : Bool} {ka kb : GoStr}
    (h : dirNameLess db da kb ka = false) :
    (da ≠ db → da = true) ∧ (da = db → ka ≤ kb) := by
  cases da <;> cases db <;>
    simp_all [dirNameLess, decide_eq_false_iff_not, not_lt]

/-- Characterization of the `formatFileSize` division loop: with enough fuel
it returns `d` scaled by `1024^k` and `e` advanced by `k`, where `k` counts
the divisions needed to push `n` below 1024. -/
theorem sizeLoopAux_spec :
    ∀ (fuel n d e : Nat), n ≤ fuel →
      ∃ k, sizeLoopAux fuel d e n = (d * 1024 ^ k, e + k)
        ∧ n < 1024 ^ (k + 1) ∧ (k = 0 ∨ 1024 ^ k ≤ n) := by
  intro fuel
  induction fuel with
  | zero =>
    intro n d e hn
    refine ⟨0, by simp [sizeLoopAux], ?_, Or.inl rfl⟩
    have : n = 0 := by omega
    simp [this]
  | succ f ih =>
    intro n d e hn
    by_cases h : 1024 ≤ n
    · have hfuel : n / 1024 ≤ f := by
        have := Nat.div_lt_self (by omega : 0 < n) (by norm_num : 1 < 1024)
        omega
      obtain ⟨k, hk, hub, hlb⟩ := ih (n / 1024) (d * 1024) (e + 1) hfuel
      refine ⟨k + 1, ?_, ?_, Or.inr ?_⟩
      · rw [show sizeLoopAux (f + 1) d e n = sizeLoopAux f (d * 1024) (e + 1) (n / 1024) by
          simp [sizeLoopAux, h]]
        rw [hk, pow_succ]
        refine congrArg₂ Prod.mk (by ring) (by omega)
      · have hlt := (Nat.div_lt_iff_lt_mul (by norm_num : 0 < 1024)).mp hub
        calc n < 1024 ^ (k + 1) * 1024 := hlt
          _ = 1024 ^ (k + 1 + 1) := (pow_succ 1024 (k + 1)).symm
      · rcases hlb with rfl | hlb
        · simpa using h
        · have := (Nat.le_div_iff_mul_le (by norm_num : 0 < 1024)).mp hlb
          calc 1024 ^ (k + 1) = 1024 ^ k * 1024 := pow_succ 1024 k
            _ ≤ n := this
    · refine ⟨0, by simp [sizeLoopAux, h], ?_, Or.inl rfl⟩
      simpa using (by omega : n < 1024)

/-- The file entries of the streamed archive are exactly the regular files of
the walked subtree, path for path and byte for byte. -/
theorem walkZip_filterMap_files :
    ∀ (pre : GoStr) (t : List FsNode),
      ((walkZip pre t).filterMap fun z => z.content.map fun c => (z.entryName, c))
        = fsRegularFiles pre t
  | _, [] => by simp [walkZip, fsRegularFiles]
  | pre, .file n c :: rest => by
    have ih := walkZip_filterMap_files pre rest
    simp [walkZip, fsRegularFiles, ih]
  | pre, .dir n ch :: rest => by
    have ih1 := walkZip_filterMap_files (pre ++ n ++ ['/']) ch
    have ih2 := walkZip_filterMap_files pre rest
    rw [List.append_assoc] at ih1
    simp [walkZip, fsRegularFiles, ih1, ih2]

/-- The content-free entries of the streamed archive are exactly the
subdirectories of the walked subtree, each named with a trailing
separator. -/
theorem walkZip_filterMap_dirs :
    ∀ (pre : GoStr) (t : List FsNode),
      ((walkZip pre t).filterMap fun z =>
          match z.content with
          | none => some z.entryName
          | some _ => none)
        = (fsSubdirs pre t).map (· ++ ['/'])
  | _, [] => by simp [walkZip, fsSubdirs]
  | pre, .file n c :: rest => by
    have ih := walkZip_filterMap_dirs pre rest
    simp [walkZip, fsSubdirs, ih]
  | pre, .dir n ch :: rest => by
    have ih1 := walkZip_filterMap_dirs (pre ++ n ++ ['/']) ch
    have ih2 := walkZip_filterMap_dirs pre rest
    rw [List.append_assoc] at ih1
    simp [walkZip, fsSubdirs, ih1, ih2]

/-- The success flag of one processed upload file is the conjunction of its
three step outcomes. -/
theorem processUploadFile_fst (fsDir : GoStr) (f : UploadFile) :
    (processUploadFile fsDir f).1 = (f.openOk && f.createOk && f.copyOk) := by
  rcases f with ⟨n, o, c, k, b⟩
  cases o <;> cases c <;> cases k <;> simp [processUploadFile]

/-- The count returned by the upload loop is the number of files for which
all three steps succeed. -/
theorem handleUploadLoop_count (fsDir : GoStr) (files : List UploadFile) :
    (handleUploadLoop fsDir files).1
      = (files.filter fun f => f.openOk && f.createOk && f.copyOk).length := by
  induction files with
  | nil => rfl
  | cons f rest ih =>
    rw [handleUploadLoop, List.filter_cons]
    cases h : (f.openOk && f.createOk && f.copyOk) <;>
      simp [processUploadFile_fst, h, ih, Nat.add_comm]

/-- The filesystem events of the upload loop decompose file by file: each
file contributes its own events independently of the fate of the others. -/
theorem handleUploadLoop_events (fsDir : GoStr) (files : List UploadFile) :
    (handleUploadLoop fsDir files).2
      = (files.map fun f => (processUploadFile fsDir f).2).flatten := by
  induction files with
  | nil => rfl
  | cons f rest ih => simp [handleUploadLoop, ih]

/-- Claim C1 (path traversal containment): evaluation at a failing input.
Against SharedRoot "/share", the browser path "/../../etc/passwd" is indeed
contained after cleaning, but the JSON API's path query "../share-evil/secret"
cleans to a relative path whose join lands in the sibling directory
"/share-evil" — outside SharedRoot in the spec's sense — and the bare
`strings.HasPrefix` check still accepts it, so the handler proceeds to
`os.Stat` instead of answering 403.  This refutes the claim that the
resolved path is never outside SharedRoot, sibling-prefix collisions
included. -/
theorem C1_path_containment_failing_input :
    resolveUnder "/share".toList "/../../etc/passwd".toList
        = some "/share/etc/passwd".toList
    ∧ withinRoot "/share".toList "/share/etc/passwd".toList = true
    ∧ resolveUnder "/share".toList "../share-evil/secret".toList
        = some "/share-evil/secret".toList
    ∧ withinRoot "/share".toList "/share-evil/secret".toList = false := by
  decide

/-- Claim C2 (upload containment): evaluation at a failing input.  With
SharedRoot "/share" and the in-bounds directory field "/", a part whose
client-supplied filename is "../evil.txt" is written to "/evil.txt" —
outside SharedRoot — because `handleUpload` joins the filename with no
containment check; and independently a crafted directory field
"../share-evil" itself passes the `strings.HasPrefix` check while resolving
outside SharedRoot.  This refutes the claim that an upload request can never
write outside SharedRoot. -/
theorem C2_upload_containment_failing_input :
    resolveUnder "/share".toList "/".toList = some "/share".toList
    ∧ uploadDestPath "/share".toList "../evil.txt".toList = "/evil.txt".toList
    ∧ withinRoot "/share".toList "/evil.txt".toList = false
    ∧ resolveUnder "/share".toList "../share-evil".toList
        = some "/share-evil".toList
    ∧ withinRoot "/share".toList "/share-evil".toList = false := by
  decide

/-- Claim C3 (auth gate behaviour): with no password configured every
request passes without credentials; with a password configured, a POST to
/login with the correct password yields a 303 redirect to the submitted
redirect field (default "/") and sets the session cookie
auth_session=authenticated (HttpOnly, Path=/, Max-Age 86400); a wrong
password yields the login form with status 401 and, the login-form outcome
carrying no cookie by construction, sets no cookie; any other request
passes when it bears the session cookie or a Basic-Auth header whose
password matches (username ignored), and otherwise receives the login form
with status 401. -/
theorem C3_auth_gate (pw : GoStr) (r : AuthRequest) :
    (pw = [] → applyAuthMiddleware pw r = .pass)
    ∧ (pw ≠ [] → r.method = "POST".toList → r.urlPath = "/login".toList →
        r.formPassword = pw →
        applyAuthMiddleware pw r =
          .redirect (if r.formRedirect = [] then "/".toList else r.formRedirect)
            sessionCookie 303)
    ∧ (pw ≠ [] → r.method = "POST".toList → r.urlPath = "/login".toList →
        r.formPassword ≠ pw →
        applyAuthMiddleware pw r = .loginForm 401 true)
    ∧ (pw ≠ [] → ¬(r.method = "POST".toList ∧ r.urlPath = "/login".toList) →
        r.cookieAuthSession = some "authenticated".toList →
        applyAuthMiddleware pw r = .pass)
    ∧ (pw ≠ [] → ¬(r.method = "POST".toList ∧ r.urlPath = "/login".toList) →
        r.cookieAuthSession ≠ some "authenticated".toList →
        ∀ u, r.basicAuth = some (u, pw) → applyAuthMiddleware pw r = .pass)
    ∧ (pw ≠ [] → ¬(r.method = "POST".toList ∧ r.urlPath = "/login".toList) →
        r.cookieAuthSession ≠ some "authenticated".toList →
        (∀ u p, r.basicAuth = some (u, p) → p ≠ pw) →
        applyAuthMiddleware pw r = .loginForm 401 false)
    ∧ sessionCookie =
        ⟨"auth_session".toList, "authenticated".toList, "/".toList, true, 86400⟩ := by
  refine ⟨?_, ?_, ?_, ?_, ?_, ?_, rfl⟩
  · intro h; simp [applyAuthMiddleware, h]
  · intro h1 h2 h3 h4; simp [applyAuthMiddleware, h1, h2, h3, h4]
  · intro h1 h2 h3 h4; simp [applyAuthMiddleware, h1, h2, h3, h4]
  · intro h1 h2 h3
    unfold applyAuthMiddleware
    rw [if_neg h1, if_neg h2, if_pos h3]
  · intro h1 h2 h3 u hba
    unfold applyAuthMiddleware
    rw [if_neg h1, if_neg h2, if_neg h3, hba]
    simp
  · intro h1 h2 h3 h4
    rcases hba : r.basicAuth with _ | ⟨u, p⟩
    · unfold applyAuthMiddleware
      rw [if_neg h1, if_neg h2, if_neg h3, hba]
    · have hne := h4 u p hba
      unfold applyAuthMiddleware
      rw [if_neg h1, if_neg h2, if_neg h3, hba]
      simp [hne]

/-- Witness for C3 at concrete inputs: a cookie-bearing GET passes, a
correct login redirects to the submitted target with the session cookie,
and a wrong login yields the 401 login form. -/
theorem C3_auth_gate_witness :
    applyAuthMiddleware "pw".toList
        ⟨"GET".toList, "/files/".toList, [], [], some "authenticated".toList, none⟩
      = .pass
    ∧ applyAuthMiddleware "pw".toList
        ⟨"POST".toList, "/login".toList, "pw".toList, "/sub".toList, none, none⟩
      = .redirect "/sub".toList sessionCookie 303
    ∧ applyAuthMiddleware "pw".toList
        ⟨"POST".toList, "/login".toList, "no".toList, [], none, none⟩
      = .loginForm 401 true := by
  refine ⟨?_, ?_, ?_⟩
  · exact (C3_auth_gate "pw".toList _).2.2.2.1 (by decide) (by decide) rfl
  · have h := (C3_auth_gate "pw".toList
      ⟨"POST".toList, "/login".toList, "pw".toList, "/sub".toList, none, none⟩).2.1
      (by decide) rfl rfl rfl
    exact h.trans (by decide)
  · exact (C3_auth_gate "pw".toList _).2.2.1 (by decide) rfl rfl (by decide)

/-- Claim C4 (auth-check probe reachable without the gate): evaluation at a
failing input.  In frontend-bundle mode the probe is indeed exempt from the
Auth Gate and reports the caller's state; but in no-bundle mode the whole
mux is wrapped in the middleware, so an unauthenticated GET to
/api/auth/check with a password configured receives the 401 login page and
never reaches the JSON status branch — contradicting the claim (and the
code's own comment) for that mode. -/
theorem C4_auth_check_gated_when_no_bundle :
    serveAuthCheckNoBundle "pw".toList
        ⟨"GET".toList, "/api/auth/check".toList, [], [], none, none⟩
      = .loginPage 401
    ∧ serveAuthCheckBundle "pw".toList
        ⟨"GET".toList, "/api/auth/check".toList, [], [], none, none⟩
      = .authJson false
    ∧ serveAuthCheckNoBundle [] ⟨"GET".toList, "/api/auth/check".toList, [], [], none, none⟩
      = .authJson true := by
  decide

/-- Claim C5 (listing order, counterexample): the JSON API listing of two
plain files named "B" and "a" comes back in the order B, a — its comparator
uses raw Go string order — and that pair violates the claimed
case-insensitive name order, which would demand "a" before "B". -/
theorem C5_listing_order_counterexample :
    ¬ (handleAPIFilesList "/".toList
        [⟨"B".toList, 1, false, 0⟩, ⟨"a".toList, 2, false, 0⟩]).Pairwise
      (fun a b => (a.isDir ≠ b.isDir → a.isDir = true)
        ∧ (a.isDir = b.isDir → toLowerGo a.name ≤ toLowerGo b.name)) := by
  decide

/-- Claim C5 as amended: in every listing, pairs with differing directory
flags put the directory first; pairs with equal flags are in case-insensitive
name order in the HTML browser listing, but in case-sensitive (byte-order)
name order in the JSON API listing. -/
theorem C5_listing_order_amended (urlPath cleanPath : GoStr) (entries : List OsDirEntry) :
    (serveDirectoryFiles urlPath entries).Pairwise
      (fun a b => (a.isDir ≠ b.isDir → a.isDir = true)
        ∧ (a.isDir = b.isDir → toLowerGo a.name ≤ toLowerGo b.name))
    ∧ (handleAPIFilesList cleanPath entries).Pairwise
      (fun a b => (a.isDir ≠ b.isDir → a.isDir = true)
        ∧ (a.isDir = b.isDir → a.name ≤ b.name)) := by
  constructor
  · haveI : IsTotal FileInfo htmlLe := ⟨fun a b => dirNameLess_total_false _ _ _ _⟩
    haveI : IsTrans FileInfo htmlLe :=
      ⟨fun _ _ _ hab hbc => dirNameLess_trans_false hab hbc⟩
    exact (List.sorted_insertionSort htmlLe _).imp fun h => dirNameLess_false_pair h
  · haveI : IsTotal APIFileItem apiLe := ⟨fun a b => dirNameLess_total_false _ _ _ _⟩
    haveI : IsTrans APIFileItem apiLe :=
      ⟨fun _ _ _ hab hbc => dirNameLess_trans_false hab hbc⟩
    exact (List.sorted_insertionSort apiLe _).imp fun h => dirNameLess_false_pair h

/-- Claim C6 (zip archive contents): for every walked subtree the archive's
file entries are exactly the regular files at their root-relative paths with
their exact bytes, and its content-free entries are exactly the
subdirectories, each named with a trailing separator; in particular a
directory holding one file and one empty subdirectory yields exactly one
file entry (with the file's bytes) and one directory entry. -/
theorem C6_zip_entries (t : List FsNode) :
    ((walkZip [] t).filterMap fun z => z.content.map fun c => (z.entryName, c))
        = fsRegularFiles [] t
    ∧ ((walkZip [] t).filterMap fun z =>
          match z.content with
          | none => some z.entryName
          | some _ => none)
        = (fsSubdirs [] t).map (· ++ ['/'])
    ∧ walkZip [] [.file "a.txt".toList [104, 105, 33, 10], .dir "sub".toList []]
        = [⟨"a.txt".toList, some [104, 105, 33, 10]⟩, ⟨"sub/".toList, none⟩] := by
  refine ⟨walkZip_filterMap_files [] t, walkZip_filterMap_dirs [] t, ?_⟩
  simp [walkZip]

/-- Claim C7 (size formatting): directories render the "-" placeholder;
byte counts below 1024 render as the integer count followed by " B"; a
count of at least 1024 (within int64 range) renders as the quotient by
1024^(e+1) — the repeated division stopping below 1024 — printed with one
decimal place, a space, the unit letter KMGTPE[e], and "B"; and the spec's
four examples evaluate as stated. -/
theorem C7_format_file_size (size : Nat) :
    formatFileSize size true = "-".toList
    ∧ (size < 1024 → formatFileSize size false = natDigits size ++ " B".toList)
    ∧ (1024 ≤ size → size < 2 ^ 63 →
        ∃ e, 1024 ^ (e + 1) ≤ size ∧ size < 1024 ^ (e + 2) ∧ e + 1 < 7 ∧
          formatFileSize size false
            = fmtFrac size (1024 ^ (e + 1)) ++ ' ' :: sizeUnit e :: ['B'])
    ∧ formatFileSize 0 false = "0 B".toList
    ∧ formatFileSize 1023 false = "1023 B".toList
    ∧ formatFileSize 1024 false = "1.0 KB".toList
    ∧ formatFileSize 1048576 false = "1.0 MB".toList := by
  refine ⟨by simp [formatFileSize], ?_, ?_, by decide, by decide, by decide, by decide⟩
  · intro h
    simp [formatFileSize, h]
  · intro h1 h2
    obtain ⟨k, hk, hub, hlb⟩ :=
      sizeLoopAux_spec (size / 1024) (size / 1024) 1024 0 le_rfl
    have hlow : 1024 ^ (k + 1) ≤ size := by
      rcases hlb with rfl | hlb
      · simpa using h1
      · have := (Nat.le_div_iff_mul_le (by norm_num : 0 < 1024)).mp hlb
        calc 1024 ^ (k + 1) = 1024 ^ k * 1024 := pow_succ 1024 k
          _ ≤ size := this
    have hhigh : size < 1024 ^ (k + 2) := by
      have := (Nat.div_lt_iff_lt_mul (by norm_num : 0 < 1024)).mp hub
      calc size < 1024 ^ (k + 1) * 1024 := this
        _ = 1024 ^ (k + 2) := (pow_succ 1024 (k + 1)).symm
    have hksmall : k + 1 < 7 := by
      have h70 : (1024 : Nat) ^ (k + 1) < 1024 ^ 7 := by
        calc (1024 : Nat) ^ (k + 1) ≤ size := hlow
          _ < 2 ^ 63 := h2
          _ < 1024 ^ 7 := by norm_num
      exact (Nat.pow_lt_pow_iff_right (by norm_num : 1 < 1024)).mp h70
    refine ⟨k, hlow, hhigh, hksmall, ?_⟩
    rw [formatFileSize, if_neg (by simp), if_neg (by omega), sizeLoopGo, hk]
    have : (1024 : Nat) * 1024 ^ k = 1024 ^ (k + 1) := by
      rw [pow_succ]; ring
    simp [this]

/-- Witness for C7 at 1048576 bytes: the loop exponent exists with the
stated bounds and the rendered string takes the one-decimal shape. -/
theorem C7_format_file_size_witness :
    ∃ e, 1024 ^ (e + 1) ≤ 1048576 ∧ 1048576 < 1024 ^ (e + 2) ∧ e + 1 < 7 ∧
      formatFileSize 1048576 false
        = fmtFrac 1048576 (1024 ^ (e + 1)) ++ ' ' :: sizeUnit e :: ['B'] :=
  (C7_format_file_size 1048576).2.2.1 (by norm_num) (by norm_num)

/-- Claim C8 (hidden files): the HTML browser listing is a permutation of
all directory entries, dotfiles included, while no entry of the JSON API
listing has a name with a leading dot. -/
theorem C8_hidden_files (urlPath cleanPath : GoStr) (entries : List OsDirEntry) :
    ((serveDirectoryFiles urlPath entries).map fun f => f.name).Perm
        (entries.map fun en => en.name)
    ∧ ∀ f ∈ handleAPIFilesList cleanPath entries, ['.'].isPrefixOf f.name = false := by
  constructor
  · rw [serveDirectoryFiles]
    refine ((List.perm_insertionSort htmlLe _).map fun f => f.name).trans ?_
    rw [List.map_map]
    rfl
  · intro f hf
    rw [handleAPIFilesList] at hf
    have hmem := (List.perm_insertionSort apiLe _).mem_iff.mp hf
    rcases List.mem_map.mp hmem with ⟨en, hen, rfl⟩
    have hfil := (List.mem_filter.mp hen).2
    simpa using hfil

/-- Witness for C8: in a directory holding ".hid" and "x", the item the API
listing actually produces for "x" has no leading dot. -/
theorem C8_hidden_files_witness :
    ['.'].isPrefixOf
        (⟨"x".toList, "/x".toList, 2, false, 0, 0⟩ : APIFileItem).name = false :=
  (C8_hidden_files "/".toList "/".toList
    [⟨".hid".toList, 1, false, 0⟩, ⟨"x".toList, 2, false, 0⟩]).2 _ (by decide)

/-- Claim C9 (per-file upload failure handling): the loop's success count is
exactly the number of files whose open, create and copy steps all succeed;
the filesystem events decompose file by file, so one failing file never
stops the others from being processed; replaying one failed file's events
leaves nothing on disk (a failed copy's partially written destination is
removed), while a successful file ends up at its destination with exactly
its bytes; and the redirect response carries only the aggregate count. -/
theorem C9_upload_per_file (fsDir cleanDir : GoStr) (files : List UploadFile) :
    (handleUploadLoop fsDir files).1
        = (files.filter fun f => f.openOk && f.createOk && f.copyOk).length
    ∧ (handleUploadLoop fsDir files).2
        = (files.map fun f => (processUploadFile fsDir f).2).flatten
    ∧ (∀ f : UploadFile, (f.openOk && f.createOk && f.copyOk) = false →
        runEvents [] (processUploadFile fsDir f).2 = [])
    ∧ (∀ f : UploadFile, (f.openOk && f.createOk && f.copyOk) = true →
        runEvents [] (processUploadFile fsDir f).2
          = [(uploadDestPath fsDir f.filename, f.content)])
    ∧ (∀ n, 0 < n → uploadRedirectURL cleanDir n
        = cleanDir
          ++ (if cleanDir.contains '?' then "&uploaded=".toList else "?uploaded=".toList)
          ++ natDigits n) := by
  refine ⟨handleUploadLoop_count fsDir files, handleUploadLoop_events fsDir files,
    ?_, ?_, ?_⟩
  · intro f h
    rcases f with ⟨n, o, c, k, b⟩
    cases o <;> cases c <;> cases k <;>
      simp_all [processUploadFile, runEvents, applyEvent]
  · intro f h
    rcases f with ⟨n, o, c, k, b⟩
    cases o <;> cases c <;> cases k <;>
      simp_all [processUploadFile, runEvents, applyEvent]
  · intro n hn
    rw [uploadRedirectURL, if_pos hn]
    split <;> simp

/-- Witness for C9: a copy-failing file leaves nothing behind, a fully
successful file lands with its bytes, and two saved files redirect to the
directory with the aggregate count appended. -/
theorem C9_upload_per_file_witness :
    runEvents []
        (processUploadFile "/share".toList
          ⟨"a.txt".toList, true, true, false, [7]⟩).2 = []
    ∧ runEvents []
        (processUploadFile "/share".toList
          ⟨"b.txt".toList, true, true, true, [8]⟩).2
      = [("/share/b.txt".toList, [8])]
    ∧ uploadRedirectURL "/".toList 2 = "/?uploaded=2".toList := by
  refine ⟨?_, ?_, ?_⟩
  · exact (C9_upload_per_file "/share".toList [] []).2.2.1
      ⟨"a.txt".toList, true, true, false, [7]⟩ rfl
  · exact ((C9_upload_per_file "/share".toList [] []).2.2.2.1
      ⟨"b.txt".toList, true, true, true, [8]⟩ rfl).trans (by decide)
  · exact ((C9_upload_per_file [] "/".toList []).2.2.2.2 2 (by norm_num)).trans (by decide)

/-- Claim C10 (login redirect target taken verbatim): a POST to /login with
the correct password redirects with 303 to exactly the submitted "redirect"
form value — whatever it is — defaulting to "/" only when that field is
empty; no validation against the originally requested path occurs. -/
theorem C10_login_redirect_verbatim (pw : GoStr) (r : AuthRequest)
    (hpw : pw ≠ []) (hm : r.method = "POST".toList)
    (hp : r.urlPath = "/login".toList) (hok : r.formPassword = pw) :
    applyAuthMiddleware pw r =
      .redirect (if r.formRedirect = [] then "/".toList else r.formRedirect)
        sessionCookie 303 := by
  unfold applyAuthMiddleware
  rw [if_neg hpw, if_pos ⟨hm, hp⟩, if_pos hok]

/-- Witness for C10: an arbitrary client-chosen target, unrelated to any
path of the server, is echoed verbatim as the redirect location; the empty
field falls back to "/". -/
theorem C10_login_redirect_verbatim_witness :
    applyAuthMiddleware "pw".toList
        ⟨"POST".toList, "/login".toList, "pw".toList,
          "http://evil.example/x".toList, none, none⟩
      = .redirect "http://evil.example/x".toList sessionCookie 303
    ∧ applyAuthMiddleware "pw".toList
        ⟨"POST".toList, "/login".toList, "pw".toList, [], none, none⟩
      = .redirect "/".toList sessionCookie 303 := by
  constructor
  · exact (C10_login_redirect_verbatim "pw".toList
      ⟨"POST".toList, "/login".toList, "pw".toList,
        "http://evil.example/x".toList, none, none⟩
      (by decide) rfl rfl rfl).trans (by decide)
  · exact (C10_login_redirect_verbatim "pw".toList
      ⟨"POST".toList, "/login".toList, "pw".toList, [], none, none⟩
      (by decide) rfl rfl rfl).trans (by decide)

end GoShare
